import Mathlib

/-!
Shallow embedding of `src/primary/init.c` (multi-process server bring-up).

External collaborators (the DPDK runtime: EAL, memzones, mempools, rings,
`rte_malloc`, the port driver) are modelled as an oracle environment `Env`
holding the results each external call would return.  The C globals
(`ports`, `pktmbuf_pool`, `clients`, `num_clients`, and the region field
`ports->num_ports`) form the state `St`.  Every embedded function returns
its C return value (or a fatal `rte_exit`, modelled as `Res.exitFailure`),
the updated state, and a trace of resource events in execution order.
-/

namespace PrimaryInit

/-- Non-null handles returned by the external facilities are modelled as
naturals; a nullable pointer is an `Option Handle`. -/
abbrev Handle := Nat

/-- Result of `rte_eal_process_type()` after a successful `rte_eal_init`:
`RTE_PROC_PRIMARY` or `RTE_PROC_SECONDARY`. -/
inductive ProcType where
  | primary
  | secondary
deriving DecidableEq, Repr

/-- Outcome of an embedded C function: a normal return value, or a call to
`rte_exit(EXIT_FAILURE, msg)` which terminates the process. -/
inductive Res (α : Type) where
  | ok (a : α)
  | exitFailure (msg : String)
deriving DecidableEq, Repr

/-- Resource events, recorded in execution order.  `ringLookup`/`ringCreate`
carry both the client index the name was derived from and the derived name,
exactly as the C code computes `q_name = get_rx_queue_name(i)`. -/
inductive Event where
  | mzLookup
  | mzReserve (size : Nat)
  | memsetZero (size : Nat)
  | appArgsParse
  | portInfoWrite
  | mempoolLookup
  | mempoolCreate (capacity : Nat)
  | clientsAlloc (size : Nat)
  | ringLookup (idx : Nat) (name : String)
  | ringCreate (idx : Nat) (name : String) (capacity : Nat) (spsc : Bool)
  | portInit (pid : Nat)
  | linkStatusCheck (nports : Nat)
deriving DecidableEq, Repr

/-- Oracle environment: the results of every external call the code can
make, plus the compile-time constants that live in headers outside `src/`
(`MBUFS_PER_CLIENT`, `MBUFS_PER_PORT`, `sizeof(struct client)`,
`sizeof(struct port_info)`), and the values the (out-of-src) application
argument parser would populate. -/
structure Env where
  /-- return value of `rte_eal_init` (consumed-argument count, `< 0` on failure) -/
  ealInitRet : Int
  /-- result of `rte_eal_process_type()` -/
  procType : ProcType
  /-- result of `rte_eth_dev_count()` -/
  totalPorts : Nat
  /-- result of `rte_memzone_lookup(MZ_PORT_INFO)` -/
  mzLookup : Option Handle
  /-- result of `rte_memzone_reserve(MZ_PORT_INFO, ...)` -/
  mzReserve : Option Handle
  /-- return value of `parse_app_args` -/
  parseRet : Int
  /-- `num_clients` as the argument parser would set it -/
  numClients : Nat
  /-- `ports->num_ports` as published through the shared region -/
  numPorts : Nat
  /-- `ports->id[i]` as published through the shared region -/
  portIds : Nat → Nat
  /-- result of `rte_mempool_lookup(PKTMBUF_POOL_NAME)` -/
  mempoolLookup : Option Handle
  /-- result of `rte_mempool_create(PKTMBUF_POOL_NAME, n, ...)`, keyed by `n` -/
  mempoolCreate : Nat → Option Handle
  /-- result of `rte_malloc("client details", size, 0)`, keyed by `size` -/
  clientsAlloc : Nat → Option Handle
  /-- result of `rte_ring_lookup(name)` -/
  ringLookup : String → Option Handle
  /-- result of `rte_ring_create(name, ...)` -/
  ringCreate : String → Option Handle
  /-- return value of `init_port(pid, pktmbuf_pool)` -/
  initPortRet : Nat → Int
  /-- `MBUFS_PER_CLIENT` from `common.h` (not under `src/`) -/
  mbufsPerClient : Nat
  /-- `MBUFS_PER_PORT` from `common.h` (not under `src/`) -/
  mbufsPerPort : Nat
  /-- `sizeof(struct client)` -/
  sizeofClient : Nat
  /-- `sizeof(struct port_info)` -/
  sizeofPortInfo : Nat

/-- The C globals of `init.c` together with the two fields of the shared
port-info region that the file reads (`num_ports`) and the array of
per-client ring pointers `clients[i].rx_q`. -/
structure St where
  /-- global `struct port_info *ports` -/
  ports : Option Handle
  /-- global `struct rte_mempool *pktmbuf_pool` -/
  pktmbuf_pool : Option Handle
  /-- global `struct client *clients` (the descriptor block pointer) -/
  clients : Option Handle
  /-- `clients[i].rx_q` for `i` below the number of loop iterations done -/
  rx_q : List (Option Handle)
  /-- global `num_clients` (set by the argument parser) -/
  num_clients : Nat
  /-- `ports->num_ports` as visible through the attached region -/
  num_ports : Nat
deriving DecidableEq, Repr

/-- Initial state: all global pointers null, no clients parsed yet. -/
def st0 : St :=
  { ports := none, pktmbuf_pool := none, clients := none,
    rx_q := [], num_clients := 0, num_ports := 0 }

/-- `#define CLIENT_QUEUE_RINGSIZE 128` (init.c line 44). -/
def CLIENT_QUEUE_RINGSIZE : Nat := 128

/-- Modelled from the spec: `get_rx_queue_name` is declared in `common.h`,
which is not under `src/`; the spec states each queue gets "a deterministic
name derived from its index", so the name is a fixed function of the client
index. -/
def get_rx_queue_name (i : Nat) : String :=
  "MProc_Client_" ++ toString i ++ "_RX"

/-- Modelled from the spec: `parse_app_args` (args.c, not under `src/`) is
the application argument parser.  Per the spec it populates
`num_ports`/`ids`/`num_clients`, "only the primary writes these;
secondaries read whatever was written", and a non-zero return signals a
fatal parse failure (checked by the caller). -/
def parse_app_args (env : Env) (st : St) : Int × St × List Event :=
  if env.parseRet ≠ 0 then
    (env.parseRet, st, [Event.appArgsParse])
  else if env.procType = ProcType.primary then
    (0, { st with num_clients := env.numClients, num_ports := env.numPorts },
      [Event.appArgsParse, Event.portInfoWrite])
  else
    (0, { st with num_clients := env.numClients, num_ports := env.numPorts },
      [Event.appArgsParse])

/-- Embedding of `init_mbuf_pools` (init.c lines 59-86).  `num_mbufs` is
computed in C `unsigned int` arithmetic, hence the `% 2 ^ 32`.  A secondary
looks the pool up and calls `rte_exit` when the lookup returns null; the
primary creates it; either way the function returns
`pktmbuf_pool == NULL` (0 on success). -/
def init_mbuf_pools (env : Env) (st : St) : Res Int × St × List Event :=
  let num_mbufs : Nat :=
    (st.num_clients * env.mbufsPerClient + st.num_ports * env.mbufsPerPort) % 2 ^ 32
  if env.procType = ProcType.secondary then
    match env.mempoolLookup with
    | none =>
      (Res.exitFailure "Cannot get mempool for mbufs",
        { st with pktmbuf_pool := none }, [Event.mempoolLookup])
    | some h =>
      (Res.ok 0, { st with pktmbuf_pool := some h }, [Event.mempoolLookup])
  else
    match env.mempoolCreate num_mbufs with
    | none =>
      (Res.ok 1, { st with pktmbuf_pool := none },
        [Event.mempoolCreate num_mbufs])
    | some h =>
      (Res.ok 0, { st with pktmbuf_pool := some h },
        [Event.mempoolCreate num_mbufs])

/-- Embedding of the `for (i = 0; i < num_clients; i++)` loop body of
`init_shm_rings` (init.c lines 107-123): `n` iterations remain, `i` is the
current index.  Each iteration derives `q_name` from `i`, then a secondary
looks the ring up while the primary creates it with capacity
`CLIENT_QUEUE_RINGSIZE` and the single-producer/single-consumer flags; a
null result calls `rte_exit`. -/
def rings_loop (env : Env) : Nat → Nat → St → Res Unit × St × List Event
  | 0, _, st => (Res.ok (), st, [])
  | n + 1, i, st =>
    let q_name := get_rx_queue_name i
    let q : Option Handle :=
      if env.procType = ProcType.secondary then env.ringLookup q_name
      else env.ringCreate q_name
    let ev : Event :=
      if env.procType = ProcType.secondary then Event.ringLookup i q_name
      else Event.ringCreate i q_name CLIENT_QUEUE_RINGSIZE true
    let st' := { st with rx_q := st.rx_q ++ [q] }
    match q with
    | none =>
      (Res.exitFailure ("Cannot create rx ring queue for client " ++ toString i),
        st', [ev])
    | some _ =>
      let r := rings_loop env n (i + 1) st'
      (r.1, r.2.1, ev :: r.2.2)

/-- Embedding of `init_shm_rings` (init.c lines 93-126): allocate the
client descriptor block with `rte_malloc` (unconditionally, in both roles),
`rte_exit` if that returns null, then run the per-client ring loop and
return 0. -/
def init_shm_rings (env : Env) (st : St) : Res Int × St × List Event :=
  let sz := env.sizeofClient * st.num_clients
  match env.clientsAlloc sz with
  | none =>
    (Res.exitFailure "Cannot allocate memory for client program details",
      { st with clients := none }, [Event.clientsAlloc sz])
  | some h =>
    let r := rings_loop env st.num_clients 0 { st with clients := some h, rx_q := [] }
    match r.1 with
    | Res.ok _ => (Res.ok 0, r.2.1, Event.clientsAlloc sz :: r.2.2)
    | Res.exitFailure m => (Res.exitFailure m, r.2.1, Event.clientsAlloc sz :: r.2.2)

/-- Embedding of the port-configuration loop of `init` (init.c lines
179-184): `n` iterations remain, `i` is the current `count`; each
iteration calls `init_port(ports->id[count], pktmbuf_pool)` and a non-zero
return calls `rte_exit` (the message formats `count`). -/
def init_ports_loop (env : Env) : Nat → Nat → Res Unit × List Event
  | 0, _ => (Res.ok (), [])
  | n + 1, i =>
    let pid := env.portIds i
    if env.initPortRet pid ≠ 0 then
      (Res.exitFailure ("Cannot initialise port " ++ toString i), [Event.portInit pid])
    else
      let r := init_ports_loop env n (i + 1)
      (r.1, Event.portInit pid :: r.2)

/-- Embedding of the port-info memzone step of `init` (init.c lines
151-165): a secondary looks the zone up and exits fatally on null; the
primary reserves it, exits fatally on null, and `memset`s the whole region
(`sizeof(*ports)` bytes) to zero.  On success `ports` points at the
region. -/
def mz_step (env : Env) (st : St) : Res Handle × St × List Event :=
  if env.procType = ProcType.secondary then
    match env.mzLookup with
    | none =>
      (Res.exitFailure "Cannot get port info structure", st, [Event.mzLookup])
    | some mz =>
      (Res.ok mz, { st with ports := some mz }, [Event.mzLookup])
  else
    match env.mzReserve with
    | none =>
      (Res.exitFailure "Cannot reserve memory zone for port information", st,
        [Event.mzReserve env.sizeofPortInfo])
    | some mz =>
      (Res.ok mz, { st with ports := some mz },
        [Event.mzReserve env.sizeofPortInfo, Event.memsetZero env.sizeofPortInfo])

/-- Embedding of `init` (init.c lines 132-192): EAL init (`return -1` on
failure), port-info memzone step, application argument parsing
(`return -1` on failure), mbuf pool step (fatal on non-zero), the
primary-only port-configuration loop, the unconditional
`check_all_ports_link_status` call, and finally `init_shm_rings`;
returns 0. -/
def init (env : Env) : Res Int × St × List Event :=
  if env.ealInitRet < 0 then
    (Res.ok (-1), st0, [])
  else
    let m1 := mz_step env st0
    match m1.1 with
    | Res.exitFailure m => (Res.exitFailure m, m1.2.1, m1.2.2)
    | Res.ok _ =>
      let p := parse_app_args env m1.2.1
      if p.1 ≠ 0 then
        (Res.ok (-1), p.2.1, m1.2.2 ++ p.2.2)
      else
        let mp := init_mbuf_pools env p.2.1
        match mp.1 with
        | Res.exitFailure m => (Res.exitFailure m, mp.2.1, m1.2.2 ++ p.2.2 ++ mp.2.2)
        | Res.ok rv =>
          if rv ≠ 0 then
            (Res.exitFailure "Cannot create needed mbuf pools", mp.2.1,
              m1.2.2 ++ p.2.2 ++ mp.2.2)
          else
            let pl :=
              if env.procType = ProcType.primary then
                init_ports_loop env mp.2.1.num_ports 0
              else
                (Res.ok (), [])
            match pl.1 with
            | Res.exitFailure m =>
              (Res.exitFailure m, mp.2.1, m1.2.2 ++ p.2.2 ++ mp.2.2 ++ pl.2)
            | Res.ok _ =>
              let sr := init_shm_rings env mp.2.1
              match sr.1 with
              | Res.exitFailure m =>
                (Res.exitFailure m, sr.2.1,
                  m1.2.2 ++ p.2.2 ++ mp.2.2 ++ pl.2 ++
                    [Event.linkStatusCheck mp.2.1.num_ports] ++ sr.2.2)
              | Res.ok _ =>
                (Res.ok 0, sr.2.1,
                  m1.2.2 ++ p.2.2 ++ mp.2.2 ++ pl.2 ++
                    [Event.linkStatusCheck mp.2.1.num_ports] ++ sr.2.2)

/-- A concrete primary-role environment in which every external call
succeeds. -/
def envPriOk : Env :=
  { ealInitRet := 3, procType := ProcType.primary, totalPorts := 2,
    mzLookup := none, mzReserve := some 11, parseRet := 0,
    numClients := 2, numPorts := 2, portIds := (fun i => i + 10),
    mempoolLookup := none, mempoolCreate := (fun _ => some 12),
    clientsAlloc := (fun _ => some 13),
    ringLookup := (fun _ => none), ringCreate := (fun _ => some 14),
    initPortRet := (fun _ => 0),
    mbufsPerClient := 4, mbufsPerPort := 8,
    sizeofClient := 16, sizeofPortInfo := 64 }

/-- A concrete secondary-role environment in which every external call
succeeds (the primary has already created every shared resource). -/
def envSecOk : Env :=
  { envPriOk with
    procType := ProcType.secondary
    mzLookup := some 21
    mzReserve := none
    mempoolLookup := some 22
    mempoolCreate := fun _ => none
    ringLookup := fun _ => some 24
    ringCreate := fun _ => none }

/-- A state in which the argument parser has recorded two clients. -/
def stTwo : St := { st0 with num_clients := 2, num_ports := 2 }

/-- An environment that differs from `envPriOk` only in that the
application-argument parser fails. -/
def envParseFail : Env := { envPriOk with parseRet := 1 }

/-- An environment that differs from `envPriOk` only in that the EAL
initialisation fails. -/
def envEalFail : Env := { envPriOk with ealInitRet := -1 }

/-- Events that create or attach the buffer pool, the client descriptor
block, or a client queue (i.e. every shared resource other than the
port-info region). -/
def Event.touchesPoolOrQueue : Event → Bool
  | Event.mempoolLookup => true
  | Event.mempoolCreate _ => true
  | Event.clientsAlloc _ => true
  | Event.ringLookup _ _ => true
  | Event.ringCreate _ _ _ _ => true
  | _ => false

/-- The ring loop only ever modifies the `rx_q` array; every other state
field passes through unchanged. -/
theorem rings_loop_fields (env : Env) :
    ∀ n i st, ((rings_loop env n i st).2.1).ports = st.ports ∧
      ((rings_loop env n i st).2.1).pktmbuf_pool = st.pktmbuf_pool ∧
      ((rings_loop env n i st).2.1).clients = st.clients ∧
      ((rings_loop env n i st).2.1).num_clients = st.num_clients ∧
      ((rings_loop env n i st).2.1).num_ports = st.num_ports := by
  intro n
  induction n with
  | zero => intro i st; simp [rings_loop]
  | succ n ih =>
    intro i st
    simp only [rings_loop]
    split
    · simp
    · have h := ih (i + 1)
        { st with rx_q := st.rx_q ++
            [if env.procType = ProcType.secondary then
                env.ringLookup (get_rx_queue_name i)
              else env.ringCreate (get_rx_queue_name i)] }
      simpa using h

/-- If the ring loop returns normally, it appended exactly one non-null
ring pointer per remaining client to `rx_q`. -/
theorem rings_loop_ok_rx_q (env : Env) :
    ∀ n i st, (rings_loop env n i st).1 = Res.ok () →
      (∀ q ∈ st.rx_q, q.isSome) →
      ((rings_loop env n i st).2.1).rx_q.length = st.rx_q.length + n ∧
        ∀ q ∈ ((rings_loop env n i st).2.1).rx_q, q.isSome := by
  intro n
  induction n with
  | zero => intro i st _ hall; simpa [rings_loop] using hall
  | succ n ih =>
    intro i st hok hall
    simp only [rings_loop] at hok ⊢
    rcases hq : (if env.procType = ProcType.secondary then
        env.ringLookup (get_rx_queue_name i)
      else env.ringCreate (get_rx_queue_name i)) with _ | z
    · simp [hq] at hok
    · simp only [hq] at hok ⊢
      have hall' : ∀ q ∈ st.rx_q ++ [some z], q.isSome := by
        intro q hqmem
        rcases List.mem_append.mp hqmem with hmem | hmem
        · exact hall q hmem
        · simp at hmem; simp [hmem]
      have h := ih (i + 1) { st with rx_q := st.rx_q ++ [some z] } hok hall'
      refine ⟨?_, h.2⟩
      rw [h.1]
      simp
      omega

/-- In a secondary process, a normal return of the ring loop means every
remaining per-client ring lookup returned a non-null handle. -/
theorem rings_loop_sec_lookup_some (env : Env)
    (hrole : env.procType = ProcType.secondary) :
    ∀ n i st, (rings_loop env n i st).1 = Res.ok () →
      ∀ k, i ≤ k → k < i + n → (env.ringLookup (get_rx_queue_name k)).isSome := by
  intro n
  induction n with
  | zero => intro i st _ k h1 h2; omega
  | succ n ih =>
    intro i st hok k h1 h2
    simp only [rings_loop, hrole, reduceIte] at hok
    rcases hq : env.ringLookup (get_rx_queue_name i) with _ | z
    · simp [hq] at hok
    · simp only [hq] at hok
      by_cases hki : k = i
      · subst hki; simp [hq]
      · exact ih (i + 1) _ hok k (by omega) (by omega)

/-- In a secondary process, a normal return of the ring loop leaves one
`ringLookup` event per remaining client index in the trace. -/
theorem rings_loop_sec_lookup_mem (env : Env)
    (hrole : env.procType = ProcType.secondary) :
    ∀ n i st, (rings_loop env n i st).1 = Res.ok () →
      ∀ k, i ≤ k → k < i + n →
        Event.ringLookup k (get_rx_queue_name k) ∈ (rings_loop env n i st).2.2 := by
  intro n
  induction n with
  | zero => intro i st _ k h1 h2; omega
  | succ n ih =>
    intro i st hok k h1 h2
    simp only [rings_loop, hrole, reduceIte] at hok ⊢
    rcases hq : env.ringLookup (get_rx_queue_name i) with _ | z
    · simp [hq] at hok
    · simp only [hq] at hok ⊢
      by_cases hki : k = i
      · subst hki; exact List.mem_cons_self _ _
      · exact List.mem_cons_of_mem _ (ih (i + 1) _ hok k (by omega) (by omega))

/-- In the primary, a ring-creation loop over clients `i..i+n-1` whose
creations all succeed returns normally and records exactly one
single-producer/single-consumer `ringCreate` event of capacity
`CLIENT_QUEUE_RINGSIZE` per client, in index order. -/
theorem rings_loop_pri_trace (env : Env)
    (hrole : env.procType = ProcType.primary) :
    ∀ n i st,
      (∀ k, i ≤ k → k < i + n → (env.ringCreate (get_rx_queue_name k)).isSome) →
      (rings_loop env n i st).1 = Res.ok () ∧
        (rings_loop env n i st).2.2 =
          (List.range' i n).map
            (fun k => Event.ringCreate k (get_rx_queue_name k) CLIENT_QUEUE_RINGSIZE true) := by
  intro n
  induction n with
  | zero => intro i st _; simp [rings_loop]
  | succ n ih =>
    intro i st hcr
    have hi : (env.ringCreate (get_rx_queue_name i)).isSome :=
      hcr i (by omega) (by omega)
    rcases hq : env.ringCreate (get_rx_queue_name i) with _ | z
    · rw [hq] at hi; simp at hi
    · have hps : ProcType.primary ≠ ProcType.secondary := by decide
      have h := ih (i + 1) { st with rx_q := st.rx_q ++ [some z] }
        (fun k h1 h2 => hcr k (by omega) (by omega))
      simp only [rings_loop, hrole, hq, if_neg hps]
      refine ⟨h.1, ?_⟩
      rw [List.range'_succ, List.map_cons, ← h.2]

/-- The argument-parsing step never touches the global pointers or the
ring array. -/
theorem parse_app_args_fields (env : Env) (st : St) :
    ((parse_app_args env st).2.1).ports = st.ports ∧
      ((parse_app_args env st).2.1).pktmbuf_pool = st.pktmbuf_pool ∧
      ((parse_app_args env st).2.1).clients = st.clients ∧
      ((parse_app_args env st).2.1).rx_q = st.rx_q := by
  by_cases hp : env.parseRet ≠ 0
  · simp [parse_app_args, hp]
  · by_cases hr : env.procType = ProcType.primary <;> simp [parse_app_args, hp, hr]

/-- On success the argument-parsing step returns 0 and records the parsed
client and port counts in the state. -/
theorem parse_app_args_ok (env : Env) (st : St) (h : env.parseRet = 0) :
    (parse_app_args env st).1 = 0 ∧
      ((parse_app_args env st).2.1).num_clients = env.numClients ∧
      ((parse_app_args env st).2.1).num_ports = env.numPorts := by
  have hp : ¬env.parseRet ≠ 0 := by simp [h]
  by_cases hr : env.procType = ProcType.primary <;> simp [parse_app_args, hp, hr]

/-- The mbuf-pool step never touches `ports`, `clients`, the ring array,
or the counters. -/
theorem init_mbuf_pools_fields (env : Env) (st : St) :
    ((init_mbuf_pools env st).2.1).ports = st.ports ∧
      ((init_mbuf_pools env st).2.1).clients = st.clients ∧
      ((init_mbuf_pools env st).2.1).rx_q = st.rx_q ∧
      ((init_mbuf_pools env st).2.1).num_clients = st.num_clients ∧
      ((init_mbuf_pools env st).2.1).num_ports = st.num_ports := by
  by_cases hr : env.procType = ProcType.secondary
  · rcases hm : env.mempoolLookup with _ | z <;>
      simp [init_mbuf_pools, hr, hm]
  · simp only [init_mbuf_pools, if_neg hr]
    rcases hm : env.mempoolCreate
        ((st.num_clients * env.mbufsPerClient + st.num_ports * env.mbufsPerPort) % 2 ^ 32)
      with _ | z <;> simp only [hm] <;> simp

/-- A zero return from the mbuf-pool step means the global pool pointer
was set to a non-null handle. -/
theorem init_mbuf_pools_ok (env : Env) (st : St)
    (h : (init_mbuf_pools env st).1 = Res.ok 0) :
    ((init_mbuf_pools env st).2.1).pktmbuf_pool.isSome := by
  by_cases hr : env.procType = ProcType.secondary
  · rcases hm : env.mempoolLookup with _ | z <;>
      simp [init_mbuf_pools, hr, hm] at h ⊢
  · simp only [init_mbuf_pools, if_neg hr] at h ⊢
    rcases hm : env.mempoolCreate
        ((st.num_clients * env.mbufsPerClient + st.num_ports * env.mbufsPerPort) % 2 ^ 32)
      with _ | z <;> simp only [hm] at h ⊢ <;> simp_all

/-- In a secondary process a zero return from the mbuf-pool step means
the external mempool lookup returned a non-null handle. -/
theorem init_mbuf_pools_sec_lookup (env : Env) (st : St)
    (hrole : env.procType = ProcType.secondary)
    (h : (init_mbuf_pools env st).1 = Res.ok 0) :
    env.mempoolLookup.isSome := by
  unfold init_mbuf_pools at h
  rcases hm : env.mempoolLookup with _ | z
  · simp [hrole, hm] at h
  · simp

/-- A normal return of `init_shm_rings` sets the descriptor-block
pointer, fills `rx_q` with one non-null ring per client, and leaves the
other globals untouched. -/
theorem init_shm_rings_ok (env : Env) (st : St)
    (h : (init_shm_rings env st).1 = Res.ok 0) :
    ((init_shm_rings env st).2.1).clients.isSome ∧
      ((init_shm_rings env st).2.1).ports = st.ports ∧
      ((init_shm_rings env st).2.1).pktmbuf_pool = st.pktmbuf_pool ∧
      ((init_shm_rings env st).2.1).num_clients = st.num_clients ∧
      ((init_shm_rings env st).2.1).rx_q.length = st.num_clients ∧
      ∀ q ∈ ((init_shm_rings env st).2.1).rx_q, q.isSome := by
  unfold init_shm_rings at h ⊢
  rcases ha : env.clientsAlloc (env.sizeofClient * st.num_clients) with _ | z
  · simp [ha] at h
  · simp only [ha] at h ⊢
    rcases hr : (rings_loop env st.num_clients 0
        { st with clients := some z, rx_q := [] }).1 with u | m
    · simp only [hr] at h ⊢
      have hf := rings_loop_fields env st.num_clients 0
        { st with clients := some z, rx_q := [] }
      have hq := rings_loop_ok_rx_q env st.num_clients 0
        { st with clients := some z, rx_q := [] } hr (by simp)
      simp at hf hq
      refine ⟨?_, ?_, ?_, ?_, ?_, hq.2⟩
      · rw [hf.2.2.1]; simp
      · exact hf.1
      · exact hf.2.1
      · exact hf.2.2.2.1
      · rw [hq.1]
    · simp [hr] at h

/-- The port-configuration loop either returns normally or exits
fatally. -/
theorem init_ports_loop_shape (env : Env) :
    ∀ n i, (init_ports_loop env n i).1 = Res.ok () ∨
      ∃ m, (init_ports_loop env n i).1 = Res.exitFailure m := by
  intro n
  induction n with
  | zero => intro i; left; simp [init_ports_loop]
  | succ n ih =>
    intro i
    simp only [init_ports_loop]
    split
    · right; exact ⟨_, rfl⟩
    · exact ih (i + 1)

/-- `init_shm_rings` either returns 0 or exits fatally: no other return
value is possible. -/
theorem init_shm_rings_shape (env : Env) (st : St) :
    (init_shm_rings env st).1 = Res.ok 0 ∨
      ∃ m, (init_shm_rings env st).1 = Res.exitFailure m := by
  unfold init_shm_rings
  rcases ha : env.clientsAlloc (env.sizeofClient * st.num_clients) with _ | z
  · simp only [ha]; right; exact ⟨_, rfl⟩
  · simp only [ha]
    rcases hr : (rings_loop env st.num_clients 0
        { st with clients := some z, rx_q := [] }).1 with u | m <;>
      simp [hr]

/-- In a secondary process the memzone step succeeds exactly when the
memzone lookup returned the handle. -/
theorem mz_step_sec_lookup (env : Env) (st : St)
    (hrole : env.procType = ProcType.secondary) (z : Handle)
    (h : (mz_step env st).1 = Res.ok z) : env.mzLookup = some z := by
  unfold mz_step at h
  simp only [hrole, reduceIte] at h
  rcases hm : env.mzLookup with _ | w
  · simp [hm] at h
  · simp [hm] at h
    rw [h]

/-- A successful memzone step stores the region handle in the global
`ports` pointer and changes nothing else. -/
theorem mz_step_ok_state (env : Env) (st : St) (z : Handle)
    (h : (mz_step env st).1 = Res.ok z) :
    (mz_step env st).2.1 = { st with ports := some z } := by
  unfold mz_step at h ⊢
  by_cases hr : env.procType = ProcType.secondary
  · simp only [if_pos hr] at h ⊢
    rcases hm : env.mzLookup with _ | w <;> simp only [hm] at h ⊢ <;> simp_all
  · simp only [if_neg hr] at h ⊢
    rcases hm : env.mzReserve with _ | w <;> simp only [hm] at h ⊢ <;> simp_all

/-- A normal return of `init_shm_rings` decomposes into a successful
descriptor-block allocation followed by a normal return of the ring
loop. -/
theorem init_shm_rings_ok_parts (env : Env) (st : St)
    (h : (init_shm_rings env st).1 = Res.ok 0) :
    ∃ z, env.clientsAlloc (env.sizeofClient * st.num_clients) = some z ∧
      (rings_loop env st.num_clients 0
        { st with clients := some z, rx_q := [] }).1 = Res.ok () := by
  unfold init_shm_rings at h
  rcases ha : env.clientsAlloc (env.sizeofClient * st.num_clients) with _ | z
  · simp [ha] at h
  · simp only [ha] at h
    rcases hr : (rings_loop env st.num_clients 0
        { st with clients := some z, rx_q := [] }).1 with u | m
    · exact ⟨z, rfl, hr⟩
    · simp [hr] at h

/-- Anatomy of a successful `init` run: every stage before the ring setup
succeeded, the ring setup itself returned 0, and the final state is the
ring-setup state. -/
theorem init_ok_elim (env : Env) (h : (init env).1 = Res.ok 0) :
    ¬env.ealInitRet < 0 ∧
      (∃ z, (mz_step env st0).1 = Res.ok z) ∧
      env.parseRet = 0 ∧
      (init_mbuf_pools env (parse_app_args env (mz_step env st0).2.1).2.1).1 = Res.ok 0 ∧
      (init_shm_rings env
        (init_mbuf_pools env (parse_app_args env (mz_step env st0).2.1).2.1).2.1).1 = Res.ok 0 ∧
      (init env).2.1 =
        (init_shm_rings env
          (init_mbuf_pools env (parse_app_args env (mz_step env st0).2.1).2.1).2.1).2.1 := by
  unfold init at h ⊢
  by_cases heal : env.ealInitRet < 0
  · simp [heal] at h
  · simp only [if_neg heal] at h ⊢
    rcases hmz : (mz_step env st0).1 with z | m
    · simp only [hmz] at h ⊢
      by_cases hp : (parse_app_args env (mz_step env st0).2.1).1 ≠ 0
      · simp [hp] at h
      · simp only [hp, reduceIte] at h ⊢
        have hpr : env.parseRet = 0 := by
          by_contra hc
          rw [show (parse_app_args env (mz_step env st0).2.1).1 = env.parseRet by
            unfold parse_app_args; simp [hc]] at hp
          exact hp hc
        rcases hmp : (init_mbuf_pools env
            (parse_app_args env (mz_step env st0).2.1).2.1).1 with rv | m
        · simp only [hmp] at h ⊢
          by_cases hrv : rv ≠ 0
          · simp [hrv] at h
          · simp only [hrv, reduceIte] at h ⊢
            rcases hpl : (if env.procType = ProcType.primary then
                init_ports_loop env
                  (init_mbuf_pools env
                    (parse_app_args env (mz_step env st0).2.1).2.1).2.1.num_ports 0
              else (Res.ok (), ([] : List Event))).1 with u | m
            · simp only [hpl] at h ⊢
              rcases hsr : (init_shm_rings env
                  (init_mbuf_pools env
                    (parse_app_args env (mz_step env st0).2.1).2.1).2.1).1 with v | m
              · simp only [hsr] at h ⊢
                have hok0 : (init_shm_rings env
                    (init_mbuf_pools env
                      (parse_app_args env (mz_step env st0).2.1).2.1).2.1).1 = Res.ok 0 := by
                  rcases init_shm_rings_shape env
                      (init_mbuf_pools env
                        (parse_app_args env (mz_step env st0).2.1).2.1).2.1 with hx | ⟨m, hx⟩
                  · exact hx
                  · rw [hx] at hsr; exact absurd hsr (by simp)
                have hrv0 : rv = 0 := by simpa using hrv
                exact ⟨heal, ⟨z, rfl⟩, hpr, by rw [hrv0], hsr.symm.trans hok0, trivial⟩
              · simp [hsr] at h
            · simp [hpl] at h
        · simp [hmp] at h
    · simp [hmz] at h

/-- A non-write event at each of the first two trace positions forces any
`portInfoWrite` event to sit at position two or later. -/
theorem write_after_two (a b : Event) (l : List Event)
    (ha : a ≠ Event.portInfoWrite) (hb : b ≠ Event.portInfoWrite) :
    ∀ k, (a :: b :: l)[k]? = some Event.portInfoWrite → 2 ≤ k := by
  intro k hk
  match k with
  | 0 => simp at hk; exact absurd hk ha
  | 1 => simp at hk; exact absurd hk hb
  | n + 2 => omega

/-- C1: the spec states the link-status polling step is executed only by
the primary process.  The code violates this: `check_all_ports_link_status`
is called unconditionally after (outside) the primary-only
port-configuration block, so the concrete secondary-role execution
`envSecOk` also reaches it — a `linkStatusCheck` event appears in its
trace. -/
theorem C1_secondary_reaches_link_status_poll :
    envSecOk.procType = ProcType.secondary ∧
      Event.linkStatusCheck envSecOk.numPorts ∈ (init envSecOk).2.2 := by
  decide

/-- C2 counterexample: in the concrete secondary-role execution
`envSecOk` with two configured clients, queue binding looks up the named
queues of BOTH client indices 0 and 1 — two distinct names — so a
secondary does not restrict itself to the single queue matching its own
index. -/
theorem C2_cex_secondary_looks_up_two_queues :
    envSecOk.procType = ProcType.secondary ∧
      Event.ringLookup 0 (get_rx_queue_name 0) ∈ (init envSecOk).2.2 ∧
      Event.ringLookup 1 (get_rx_queue_name 1) ∈ (init envSecOk).2.2 ∧
      get_rx_queue_name 0 ≠ get_rx_queue_name 1 := by
  decide

/-- C2 (amended): a secondary process that completes queue binding has
looked up the named queue of EVERY client index below `num_clients`, not
only the one matching its own index. -/
theorem C2_secondary_looks_up_every_client_queue (env : Env) (st : St)
    (hrole : env.procType = ProcType.secondary)
    (hok : (init_shm_rings env st).1 = Res.ok 0) :
    ∀ i < st.num_clients,
      Event.ringLookup i (get_rx_queue_name i) ∈ (init_shm_rings env st).2.2 := by
  intro i hi
  obtain ⟨z, ha, hloop⟩ := init_shm_rings_ok_parts env st hok
  have hmem := rings_loop_sec_lookup_mem env hrole st.num_clients 0
    { st with clients := some z, rx_q := [] } hloop i (by omega) (by omega)
  unfold init_shm_rings
  simp only [ha]
  rcases hr : (rings_loop env st.num_clients 0
      { st with clients := some z, rx_q := [] }).1 with u | m
  · simp only [hr]
    exact List.mem_cons_of_mem _ hmem
  · rw [hr] at hloop
    simp at hloop

/-- C2 witness: the amended statement at the concrete secondary
environment `envSecOk` with two clients, instantiated at index 1. -/
theorem C2_amended_witness :
    Event.ringLookup 1 (get_rx_queue_name 1) ∈ (init_shm_rings envSecOk stTwo).2.2 :=
  C2_secondary_looks_up_every_client_queue envSecOk stTwo (by decide) (by decide)
    1 (by decide)

/-- C3 counterexample: `clients = rte_malloc(...)` runs unconditionally,
so the concrete secondary-role execution `envSecOk` also allocates the
client descriptor block itself — a `clientsAlloc` event appears in its
trace — instead of attaching to a block the primary allocated. -/
theorem C3_cex_secondary_allocates_block :
    envSecOk.procType = ProcType.secondary ∧
      Event.clientsAlloc (envSecOk.sizeofClient * envSecOk.numClients) ∈
        (init envSecOk).2.2 := by
  decide

/-- C3 (amended): the client descriptor block is allocated afresh by
EVERY process that runs queue binding, the secondary as well as the
primary: the first resource event of `init_shm_rings` is always the
allocation of `sizeof(struct client) * num_clients` bytes. -/
theorem C3_every_role_allocates_block (env : Env) (st : St) :
    ((init_shm_rings env st).2.2).head? =
      some (Event.clientsAlloc (env.sizeofClient * st.num_clients)) := by
  unfold init_shm_rings
  rcases ha : env.clientsAlloc (env.sizeofClient * st.num_clients) with _ | z
  · simp only [ha]
    rfl
  · simp only [ha]
    rcases hr : (rings_loop env st.num_clients 0
        { st with clients := some z, rx_q := [] }).1 with u | m <;>
      simp only [hr] <;> rfl

/-- C4 counterexample: with `envParseFail` (primary role, application
argument parsing fails) `init` returns -1 — the caller then exits
non-zero — but the named port-info region has already been created, so
"exits before any shared resource has been created or attached" is false
for argument-parsing failures. -/
theorem C4_cex_parse_failure_after_region_created :
    (init envParseFail).1 = Res.ok (-1) ∧
      Event.mzReserve envParseFail.sizeofPortInfo ∈ (init envParseFail).2.2 := by
  decide

/-- C4 (amended): an execution-environment (EAL) failure makes `init`
fail before any resource event at all; an application-argument parsing
failure makes `init` fail after the port-info region step, but before
the pool, the descriptor block, or any queue is created or attached. -/
theorem C4_env_failures_fail_fast :
    (∀ env : Env, env.ealInitRet < 0 → init env = (Res.ok (-1), st0, [])) ∧
    (∀ env : Env, ¬env.ealInitRet < 0 → env.parseRet ≠ 0 →
      (env.procType = ProcType.secondary → env.mzLookup.isSome) →
      (env.procType ≠ ProcType.secondary → env.mzReserve.isSome) →
      (init env).1 = Res.ok (-1) ∧
        ∀ e ∈ (init env).2.2, Event.touchesPoolOrQueue e = false) := by
  constructor
  · intro env h
    unfold init
    rw [if_pos h]
  · intro env h1 h2 h3 h4
    unfold init
    rw [if_neg h1]
    by_cases hr : env.procType = ProcType.secondary
    · obtain ⟨z, hz⟩ := Option.isSome_iff_exists.mp (h3 hr)
      have hm1 : mz_step env st0 =
          (Res.ok z, { st0 with ports := some z }, [Event.mzLookup]) := by
        unfold mz_step
        rw [if_pos hr, hz]
      have hp : parse_app_args env { st0 with ports := some z } =
          (env.parseRet, { st0 with ports := some z }, [Event.appArgsParse]) := by
        unfold parse_app_args
        rw [if_pos h2]
      simp only [hm1, hp, if_pos h2]
      refine ⟨by trivial, ?_⟩
      intro e he
      simp at he
      rcases he with rfl | rfl <;> rfl
    · obtain ⟨z, hz⟩ := Option.isSome_iff_exists.mp (h4 hr)
      have hm1 : mz_step env st0 =
          (Res.ok z, { st0 with ports := some z },
            [Event.mzReserve env.sizeofPortInfo,
              Event.memsetZero env.sizeofPortInfo]) := by
        unfold mz_step
        rw [if_neg hr, hz]
      have hp : parse_app_args env { st0 with ports := some z } =
          (env.parseRet, { st0 with ports := some z }, [Event.appArgsParse]) := by
        unfold parse_app_args
        rw [if_pos h2]
      simp only [hm1, hp, if_pos h2]
      refine ⟨by trivial, ?_⟩
      intro e he
      simp at he
      rcases he with rfl | rfl | rfl <;> rfl

/-- C4 witness: the amended statement applied at the two concrete
environments `envEalFail` (EAL failure, empty trace) and `envParseFail`
(argument-parse failure after the region step). -/
theorem C4_amended_witness :
    init envEalFail = (Res.ok (-1), st0, []) ∧
      ((init envParseFail).1 = Res.ok (-1) ∧
        ∀ e ∈ (init envParseFail).2.2, Event.touchesPoolOrQueue e = false) :=
  ⟨C4_env_failures_fail_fast.1 envEalFail (by decide),
    C4_env_failures_fail_fast.2 envParseFail (by decide) (by decide)
      (by decide) (by decide)⟩

/-- C5: if a secondary-role `init` run returns success, every named
shared-resource lookup it needed — port-info memzone, mbuf pool, and the
ring of every client index — returned a non-null handle: bring-up never
continues past a null lookup with a missing or partial handle. -/
theorem C5_secondary_success_needs_all_lookups (env : Env)
    (hrole : env.procType = ProcType.secondary)
    (hok : (init env).1 = Res.ok 0) :
    env.mzLookup.isSome ∧ env.mempoolLookup.isSome ∧
      ∀ i < env.numClients, (env.ringLookup (get_rx_queue_name i)).isSome := by
  obtain ⟨heal, ⟨z, hmz⟩, hpr, hmp, hsr, hfin⟩ := init_ok_elim env hok
  refine ⟨?_, ?_, ?_⟩
  · rw [mz_step_sec_lookup env st0 hrole z hmz]
    rfl
  · exact init_mbuf_pools_sec_lookup env _ hrole hmp
  · have hst2 := parse_app_args_ok env (mz_step env st0).2.1 hpr
    have hst3 := init_mbuf_pools_fields env (parse_app_args env (mz_step env st0).2.1).2.1
    have hnc : (init_mbuf_pools env
        (parse_app_args env (mz_step env st0).2.1).2.1).2.1.num_clients =
        env.numClients := by
      rw [hst3.2.2.2.1, hst2.2.1]
    obtain ⟨w, hw, hloop⟩ := init_shm_rings_ok_parts env _ hsr
    intro i hi
    have hi' : i < (init_mbuf_pools env
        (parse_app_args env (mz_step env st0).2.1).2.1).2.1.num_clients := by
      rw [hnc]; exact hi
    exact rings_loop_sec_lookup_some env hrole _ 0 _ hloop i (by omega) (by omega)

/-- C5 witness: the theorem applied at the concrete secondary-role
environment `envSecOk`, whose `init` run succeeds; the per-client part is
instantiated at index 1. -/
theorem C5_witness :
    envSecOk.mzLookup.isSome ∧ envSecOk.mempoolLookup.isSome ∧
      (envSecOk.ringLookup (get_rx_queue_name 1)).isSome := by
  have h := C5_secondary_success_needs_all_lookups envSecOk (by decide) (by decide)
  exact ⟨h.1, h.2.1, h.2.2 1 (by decide)⟩

/-- C6: when the primary creates the buffer pool it requests capacity
`num_clients * MBUFS_PER_CLIENT + num_ports * MBUFS_PER_PORT` exactly,
whenever that product sum fits the C `unsigned int` the code computes it
in. -/
theorem C6_pool_capacity_formula (env : Env) (st : St)
    (hrole : env.procType = ProcType.primary)
    (hfit : st.num_clients * env.mbufsPerClient + st.num_ports * env.mbufsPerPort
      < 2 ^ 32) :
    (init_mbuf_pools env st).2.2 =
      [Event.mempoolCreate
        (st.num_clients * env.mbufsPerClient + st.num_ports * env.mbufsPerPort)] := by
  have hr : env.procType ≠ ProcType.secondary := by rw [hrole]; decide
  simp only [init_mbuf_pools, if_neg hr, Nat.mod_eq_of_lt hfit]
  rcases hm : env.mempoolCreate
      (st.num_clients * env.mbufsPerClient + st.num_ports * env.mbufsPerPort)
    with _ | z <;> rfl

/-- C6 witness: the theorem at the concrete primary environment with two
clients and two ports: capacity `2 * 4 + 2 * 8 = 24`. -/
theorem C6_witness :
    (init_mbuf_pools envPriOk stTwo).2.2 = [Event.mempoolCreate 24] :=
  C6_pool_capacity_formula envPriOk stTwo (by decide) (by decide)

/-- C7: queue binding run by the primary with zero configured clients
creates no rings and returns success (the whole trace is the single
zero-byte descriptor-block allocation, and `rx_q` stays empty) —
provided the external allocator answers the zero-byte request with a
non-null pointer. -/
theorem C7_zero_clients_noop (env : Env) (st : St)
    (hrole : env.procType = ProcType.primary)
    (hzero : st.num_clients = 0)
    (halloc : (env.clientsAlloc (env.sizeofClient * st.num_clients)).isSome) :
    (init_shm_rings env st).1 = Res.ok 0 ∧
      (init_shm_rings env st).2.2 =
        [Event.clientsAlloc (env.sizeofClient * st.num_clients)] ∧
      ((init_shm_rings env st).2.1).rx_q = [] := by
  obtain ⟨z, hz⟩ := Option.isSome_iff_exists.mp halloc
  unfold init_shm_rings
  simp only [hzero, Nat.mul_zero] at hz ⊢
  simp [hz, rings_loop]

/-- C7 witness: the theorem at the concrete primary environment and the
initial state, whose client count is zero. -/
theorem C7_witness :
    (init_shm_rings envPriOk st0).1 = Res.ok 0 ∧
      (init_shm_rings envPriOk st0).2.2 =
        [Event.clientsAlloc (envPriOk.sizeofClient * st0.num_clients)] ∧
      ((init_shm_rings envPriOk st0).2.1).rx_q = [] :=
  C7_zero_clients_noop envPriOk st0 (by decide) (by decide) (by decide)

/-- C8: a primary whose port-info reservation succeeds zero-fills all
`sizeof(struct port_info)` bytes of the region immediately — the first
two trace events are the reservation and the memset — and every
`portInfoWrite` event sits at trace position 2 or later, i.e. the region
is zeroed before any port data is written into it. -/
theorem C8_region_zeroed_before_population (env : Env)
    (heal : ¬env.ealInitRet < 0)
    (hrole : env.procType = ProcType.primary)
    (hmz : env.mzReserve.isSome) :
    ((init env).2.2).take 2 =
      [Event.mzReserve env.sizeofPortInfo, Event.memsetZero env.sizeofPortInfo] ∧
    ∀ k, ((init env).2.2)[k]? = some Event.portInfoWrite → 2 ≤ k := by
  obtain ⟨z, hz⟩ := Option.isSome_iff_exists.mp hmz
  have hr : env.procType ≠ ProcType.secondary := by rw [hrole]; decide
  have hm1 : mz_step env st0 =
      (Res.ok z, { st0 with ports := some z },
        [Event.mzReserve env.sizeofPortInfo, Event.memsetZero env.sizeofPortInfo]) := by
    unfold mz_step
    rw [if_neg hr, hz]
  have hsplit : ∃ rest, (init env).2.2 =
      Event.mzReserve env.sizeofPortInfo ::
        Event.memsetZero env.sizeofPortInfo :: rest := by
    unfold init
    rw [if_neg heal]
    simp only [hm1]
    repeat' split
    all_goals simp only [List.cons_append, List.nil_append]
    all_goals exact ⟨_, rfl⟩
  obtain ⟨rest, hrest⟩ := hsplit
  rw [hrest]
  refine ⟨rfl, ?_⟩
  exact write_after_two _ _ _ (by simp) (by simp)

/-- C8 witness: the theorem at the concrete primary environment
`envPriOk` (port-info region of 64 bytes). -/
theorem C8_witness :
    ((init envPriOk).2.2).take 2 = [Event.mzReserve 64, Event.memsetZero 64] :=
  (C8_region_zeroed_before_population envPriOk (by decide) (by decide) (by decide)).1

/-- C9: for any `num_clients ≥ 1`, a primary whose allocations succeed
creates exactly `num_clients` queues — one `ringCreate` event per client
index in order, each of capacity `CLIENT_QUEUE_RINGSIZE = 128` with the
single-producer/single-consumer flags, each named deterministically from
its index — and queue binding returns success. -/
theorem C9_primary_creates_num_clients_queues (env : Env) (st : St)
    (hrole : env.procType = ProcType.primary)
    (hn : 1 ≤ st.num_clients)
    (halloc : (env.clientsAlloc (env.sizeofClient * st.num_clients)).isSome)
    (hcreate : ∀ i < st.num_clients, (env.ringCreate (get_rx_queue_name i)).isSome) :
    (init_shm_rings env st).1 = Res.ok 0 ∧
      (init_shm_rings env st).2.2 =
        Event.clientsAlloc (env.sizeofClient * st.num_clients) ::
          (List.range st.num_clients).map
            (fun i => Event.ringCreate i (get_rx_queue_name i)
              CLIENT_QUEUE_RINGSIZE true) := by
  obtain ⟨z, hz⟩ := Option.isSome_iff_exists.mp halloc
  have hloop := rings_loop_pri_trace env hrole st.num_clients 0
    { st with clients := some z, rx_q := [] }
    (fun k h1 h2 => hcreate k (by omega))
  unfold init_shm_rings
  simp only [hz, hloop.1]
  refine ⟨by trivial, ?_⟩
  rw [hloop.2, List.range_eq_range']

/-- C9 witness: the theorem at the concrete primary environment with two
clients: two ring-creation events for indices 0 and 1. -/
theorem C9_witness :
    (init_shm_rings envPriOk stTwo).1 = Res.ok 0 ∧
      (init_shm_rings envPriOk stTwo).2.2 =
        Event.clientsAlloc (envPriOk.sizeofClient * stTwo.num_clients) ::
          (List.range stTwo.num_clients).map
            (fun i => Event.ringCreate i (get_rx_queue_name i)
              CLIENT_QUEUE_RINGSIZE true) :=
  C9_primary_creates_num_clients_queues envPriOk stTwo (by decide) (by decide)
    (by decide) (by decide)

/-- C10: a zero return from `init` guarantees that every global handle
is non-null — `ports`, `pktmbuf_pool`, `clients`, and one non-null ring
per client in `rx_q` — and `init_shm_rings` can only ever return 0:
every failure path inside it terminates the process instead of
returning. -/
theorem C10_success_all_handles_nonnull :
    (∀ env : Env, (init env).1 = Res.ok 0 →
      ((init env).2.1).ports.isSome ∧
      ((init env).2.1).pktmbuf_pool.isSome ∧
      ((init env).2.1).clients.isSome ∧
      ((init env).2.1).rx_q.length = ((init env).2.1).num_clients ∧
      ∀ q ∈ ((init env).2.1).rx_q, q.isSome) ∧
    (∀ (env : Env) (st : St), (init_shm_rings env st).1 = Res.ok 0 ∨
      ∃ m, (init_shm_rings env st).1 = Res.exitFailure m) := by
  constructor
  · intro env hok
    obtain ⟨heal, ⟨z, hmz⟩, hpr, hmp, hsr, hfin⟩ := init_ok_elim env hok
    have h1 : ((mz_step env st0).2.1).ports = some z := by
      rw [mz_step_ok_state env st0 z hmz]
    have hpf := parse_app_args_fields env (mz_step env st0).2.1
    have hmf := init_mbuf_pools_fields env
      (parse_app_args env (mz_step env st0).2.1).2.1
    have hpool := init_mbuf_pools_ok env
      (parse_app_args env (mz_step env st0).2.1).2.1 hmp
    have hshm := init_shm_rings_ok env
      (init_mbuf_pools env (parse_app_args env (mz_step env st0).2.1).2.1).2.1 hsr
    rw [hfin]
    refine ⟨?_, ?_, hshm.1, ?_, hshm.2.2.2.2.2⟩
    · rw [hshm.2.1, hmf.1, hpf.1, h1]
      rfl
    · rw [hshm.2.2.1]
      exact hpool
    · rw [hshm.2.2.2.2.1, hshm.2.2.2.1]
  · intro env st
    exact init_shm_rings_shape env st

/-- C10 witness: the first part of the theorem applied at the concrete
primary environment `envPriOk`, whose `init` run returns 0. -/
theorem C10_witness :
    ((init envPriOk).2.1).ports.isSome ∧
      ((init envPriOk).2.1).pktmbuf_pool.isSome ∧
      ((init envPriOk).2.1).clients.isSome := by
  have h1 := C10_success_all_handles_nonnull.1 envPriOk (by decide)
  exact ⟨h1.1, h1.2.1, h1.2.2.1⟩

end PrimaryInit
